import Mathlib

/-!
Shallow embedding of the Bellabeat case-study script
(`src/bellabeat_pdf_generation_code.py`) and proofs about its
data-transformation pipeline: feature derivation at load time, the
aggregations of `analyze_data`, the detailed-page lookups of
`generate_pdf_report`, and the `summary_df` export.

Numeric modelling conventions: integer columns are `ℤ`; floating-point
means and percentages are exact rationals `ℚ`; a floating-point value
that is not a finite number (the NaN produced by `0 / 0`, or the result
of dividing by zero in general) is `none : Option ℚ`.  Dates are naive
calendar days encoded as days since 1970-01-01 (a Thursday).
-/

/-- One raw row of the input table, with the columns the script reads:
`Id`, `ActivityDate`, `TotalSteps`, `Calories`, `VeryActiveMinutes`,
`FairlyActiveMinutes`, `LightlyActiveMinutes`, `SedentaryMinutes`. -/
structure RawRecord where
  id : ℤ
  activityDate : ℤ
  totalSteps : ℤ
  calories : ℤ
  veryActiveMinutes : ℤ
  fairlyActiveMinutes : ℤ
  lightlyActiveMinutes : ℤ
  sedentaryMinutes : ℤ
deriving DecidableEq, Repr

/-- Embedding of `classify_activity_level` (source lines 26-34), the
nested function defined in the local scope of `load_and_clean_data`.
It is applied both to integer step counts and to floating-point means,
so its argument is `ℚ`. -/
def classify_activity_level (steps : ℚ) : String :=
  if steps < 5000 then "Sedentary"
  else if steps < 7500 then "Lightly Active"
  else if steps < 10000 then "Fairly Active"
  else "Very Active"

/-- The `day_order` list of source line 73, also the codomain of
`Series.dt.day_name()`. -/
def day_order : List String :=
  ["Monday", "Tuesday", "Wednesday", "Thursday", "Friday", "Saturday", "Sunday"]

/-- Embedding of `df.ActivityDate.dt.day_name()` (source line 37) on a
naive date encoded as days since 1970-01-01; day 0 is a Thursday, so
day `d` falls on `day_order[(d + 3) mod 7]`. -/
def dayNameOf (date : ℤ) : String := day_order.getD ((date + 3) % 7).toNat ""

/-- A row of the derived table: the raw columns plus the five derived
columns added by `load_and_clean_data` (source lines 36-40). -/
structure Record extends RawRecord where
  activityLevel : String
  dayOfWeek : String
  totalActiveMinutes : ℤ
  activityPercentage : Option ℚ
  isWeekend : Bool
deriving DecidableEq, Repr

/-- Row-wise content of the feature engineering of `load_and_clean_data`
(source lines 36-40).  `ActivityPercentage` is
`TotalActiveMinutes / (TotalActiveMinutes + SedentaryMinutes) * 100`;
when the denominator is zero, IEEE division produces no finite value
(NaN for `0 / 0`), modelled as `none`. -/
def deriveRecord (r : RawRecord) : Record :=
  let totalActive := r.veryActiveMinutes + r.fairlyActiveMinutes + r.lightlyActiveMinutes
  { toRawRecord := r
    activityLevel := classify_activity_level (r.totalSteps : ℚ)
    dayOfWeek := dayNameOf r.activityDate
    totalActiveMinutes := totalActive
    activityPercentage :=
      if totalActive + r.sedentaryMinutes = 0 then none
      else some ((totalActive : ℚ) / ((totalActive : ℚ) + (r.sedentaryMinutes : ℚ)) * 100)
    isWeekend := (["Saturday", "Sunday"] : List String).contains (dayNameOf r.activityDate) }

/-- Embedding of the feature-engineering part of `load_and_clean_data`
(source lines 17-42); the file and date parsing are I/O and out of
scope, so the input is the already-parsed row list. -/
def load_and_clean_data (rows : List RawRecord) : List Record := rows.map deriveRecord

/-- Number of occurrences of `v` in a list. -/
def countOcc {α : Type} [DecidableEq α] (v : α) : List α → ℕ
  | [] => 0
  | x :: xs => (if x = v then 1 else 0) + countOcc v xs

/-- Removal of every occurrence of `v` from a list. -/
def eraseAllOcc {α : Type} [DecidableEq α] (v : α) : List α → List α
  | [] => []
  | x :: xs => if x = v then eraseAllOcc v xs else x :: eraseAllOcc v xs

/-- The distinct values of a list, first occurrence first — the group
keys a pandas hash aggregation discovers, before any sorting. -/
def uniqueFirst {α : Type} [DecidableEq α] : List α → List α
  | [] => []
  | x :: xs => x :: eraseAllOcc x (uniqueFirst xs)

/-- Occurrence counts of the distinct values of a list, keyed by first
occurrence: the unsorted content of `Series.value_counts()`. -/
def valueCounts {α : Type} [DecidableEq α] (l : List α) : List (α × ℕ) :=
  (uniqueFirst l).map (fun v => (v, countOcc v l))

/-- Insertion step of a stable sort: `a` goes in front of the first
element it compares no-worse than. -/
def insertBy {α : Type} (le : α → α → Bool) (a : α) : List α → List α
  | [] => [a]
  | b :: bs => if le a b then a :: b :: bs else b :: insertBy le a bs

/-- Stable sort by the boolean preorder `le`; for a total `le` this is
the unique stable sort, hence the result pandas produces with its
stable sorting of aggregation output. -/
def sortBy {α : Type} (le : α → α → Bool) : List α → List α
  | [] => []
  | a :: as => insertBy le a (sortBy le as)

/-- Embedding of `Series.value_counts(normalize=True) * 100` (source
lines 66 and 70): counts of the present values, sorted by descending
count (stable, so ties keep first-occurrence order), each divided by
the series length and scaled to a percentage.  Values absent from the
series do not appear. -/
def value_counts_pct {α : Type} [DecidableEq α] (l : List α) : List (α × ℚ) :=
  (sortBy (fun a b => b.2 ≤ a.2) (valueCounts l)).map
    (fun p => (p.1, (p.2 : ℚ) / (l.length : ℚ) * 100))

/-- Label lookup `s[k]` on a pandas Series with unique labels, returning
`none` where pandas raises `KeyError`. -/
def seriesGet {α β : Type} [DecidableEq α] (s : List (α × β)) (k : α) : Option β :=
  (s.find? (fun p => p.1 = k)).map (fun p => p.2)

/-- Mean of a float series: NaN (`none`) on an empty series. -/
def meanOpt (xs : List ℚ) : Option ℚ :=
  if xs.isEmpty then none else some (xs.sum / (xs.length : ℚ))

/-- Mean of a series known to be nonempty (a group produced by
`groupby`, which only materialises keys that occur). -/
def meanNE (xs : List ℚ) : ℚ := xs.sum / (xs.length : ℚ)

/-- Embedding of source line 66:
`df['ActivityLevel'].value_counts(normalize=True) * 100`. -/
def activity_distribution (df : List Record) : List (String × ℚ) :=
  value_counts_pct (df.map (fun r => r.activityLevel))

/-- Embedding of `df.groupby('Id')['TotalSteps'].mean()` (source line
69): for each distinct `Id` (groupby sorts keys ascending), the mean of
that user's `TotalSteps`. -/
def groupby_id_mean_steps (df : List Record) : List (ℤ × ℚ) :=
  (sortBy (fun a b => a ≤ b) (uniqueFirst (df.map (fun r => r.id)))).map (fun i =>
    (i, meanNE ((df.filter (fun r => r.id = i)).map (fun r => (r.totalSteps : ℚ)))))

/-- Embedding of source lines 69-70 as they would evaluate with the
classifier in scope: classify each per-user mean, then
`value_counts(normalize=True) * 100`. -/
def user_activity_levels (df : List Record) : List (String × ℚ) :=
  value_counts_pct ((groupby_id_mean_steps df).map (fun p => classify_activity_level p.2))

/-- Embedding of source lines 73-74:
`df.groupby('DayOfWeek')['TotalSteps'].mean().reindex(day_order)`.
`reindex` emits one entry per label of `day_order`, in that order,
taking the group mean when the day occurs in the data and NaN (`none`)
otherwise. -/
def weekly_patterns (df : List Record) : List (String × Option ℚ) :=
  day_order.map (fun d =>
    (d, meanOpt ((df.filter (fun r => r.dayOfWeek = d)).map (fun r => (r.totalSteps : ℚ)))))

/-- Embedding of source lines 78-82: means of `TotalSteps`,
`VeryActiveMinutes` and `SedentaryMinutes` grouped by `IsWeekend`
(groupby sorts keys `false < true` and emits only present groups). -/
def weekend_comparison (df : List Record) : List (Bool × (ℚ × ℚ × ℚ)) :=
  (([false, true] : List Bool).filter (fun b => df.any (fun r => r.isWeekend == b))).map
    (fun b =>
      let g := df.filter (fun r => r.isWeekend == b)
      (b, (meanNE (g.map (fun r => (r.totalSteps : ℚ))),
           meanNE (g.map (fun r => (r.veryActiveMinutes : ℚ))),
           meanNE (g.map (fun r => (r.sedentaryMinutes : ℚ))))))

/-- The `basic_stats` entry built on source lines 56-63.  `date_range`
keeps the min and max date (the source formats them into a string);
the three means are NaN (`none`) on an empty table. -/
structure BasicStats where
  total_records : ℕ
  unique_users : ℕ
  date_range : Option ℤ × Option ℤ
  avg_steps : Option ℚ
  avg_calories : Option ℚ
  avg_sedentary_hours : Option ℚ
deriving DecidableEq, Repr

/-- Embedding of source lines 56-63. -/
def basic_stats (df : List Record) : BasicStats :=
  { total_records := df.length
    unique_users := (uniqueFirst (df.map (fun r => r.id))).length
    date_range := ((df.map (fun r => r.activityDate)).min?,
                   (df.map (fun r => r.activityDate)).max?)
    avg_steps := meanOpt (df.map (fun r => (r.totalSteps : ℚ)))
    avg_calories := meanOpt (df.map (fun r => (r.calories : ℚ)))
    avg_sedentary_hours := (meanOpt (df.map (fun r => (r.sedentaryMinutes : ℚ)))).map
      (fun q => q / 60) }

/-- The `analysis_results` dictionary returned by `analyze_data` when it
completes (source lines 53-85). -/
structure AnalysisResults where
  basicStats : BasicStats
  activityDistribution : List (String × ℚ)
  userActivityLevels : List (String × ℚ)
  weeklyPatterns : List (String × Option ℚ)
  weekendComparison : List (Bool × (ℚ × ℚ × ℚ))
deriving DecidableEq, Repr

/-- Names bound in the module (global) scope of the script: the seven
imported names and the module-level definitions and assignments. -/
def module_scope : List String :=
  ["pd", "np", "plt", "sns", "datetime", "PdfPages", "warnings",
   "load_and_clean_data", "df", "analyze_data", "results",
   "create_visualizations", "visualization_fig", "generate_pdf_report",
   "summary_df"]

/-- Names local to `analyze_data` (source lines 51-85): its parameter
and the names it assigns. -/
def analyze_data_scope : List String :=
  ["df", "analysis_results", "user_stats", "day_order", "weekly_patterns",
   "weekend_comparison"]

/-- Python name resolution as seen from inside `analyze_data`: a name
resolves iff it is local to `analyze_data` or bound at module scope
(no relevant builtin exists for the names of this script). -/
def resolvesInAnalyzeData (n : String) : Bool :=
  analyze_data_scope.contains n || module_scope.contains n

/-- Embedding of `analyze_data` (source lines 51-85) with the table
threaded as explicit state (second component).  Lines 56-66 run first;
evaluating line 69 then requires the name `classify_activity_level`,
which is local to `load_and_clean_data`, so resolution is attempted
before the remaining aggregations; on failure the call aborts with a
`NameError` and the table is returned as it was. -/
def analyze_data (df : List Record) : Except String AnalysisResults × List Record :=
  let bs := basic_stats df
  let ad := activity_distribution df
  if resolvesInAnalyzeData "classify_activity_level" then
    (Except.ok
      { basicStats := bs
        activityDistribution := ad
        userActivityLevels := user_activity_levels df
        weeklyPatterns := weekly_patterns df
        weekendComparison := weekend_comparison df }, df)
  else
    (Except.error "NameError: name classify_activity_level is not defined", df)

/-- The four bucket labels whose percentages the detailed-analysis page
interpolates (source lines 211-220). -/
def report_levels : List String :=
  ["Sedentary", "Lightly Active", "Fairly Active", "Very Active"]

/-- A single label lookup of the report text: `series[k]` either yields
the number or raises `KeyError: k`. -/
def lookupPct (s : List (String × ℚ)) (k : String) : Except String ℚ :=
  match seriesGet s k with
  | some q => Except.ok q
  | none => Except.error ("KeyError: " ++ k)

/-- Embedding of the data lookups of the detailed-analysis page of
`generate_pdf_report` (source lines 207-226): the f-string reads the
four activity-distribution percentages and then the four user-level
percentages in the order of `report_levels`; evaluation aborts at the
first absent label with a `KeyError` naming it. -/
def render_detailed_page (res : AnalysisResults) : Except String (List ℚ) := do
  let a1 ← lookupPct res.activityDistribution "Sedentary"
  let a2 ← lookupPct res.activityDistribution "Lightly Active"
  let a3 ← lookupPct res.activityDistribution "Fairly Active"
  let a4 ← lookupPct res.activityDistribution "Very Active"
  let u1 ← lookupPct res.userActivityLevels "Sedentary"
  let u2 ← lookupPct res.userActivityLevels "Lightly Active"
  let u3 ← lookupPct res.userActivityLevels "Fairly Active"
  let u4 ← lookupPct res.userActivityLevels "Very Active"
  pure [a1, a2, a3, a4, u1, u2, u3, u4]

/-- Auxiliary of `idxmax`: the first label attaining the largest
non-NaN value, with that value; a later entry replaces the current best
only when strictly larger. -/
def idxmaxP : List (String × Option ℚ) → Option (String × ℚ)
  | [] => none
  | (_, none) :: rest => idxmaxP rest
  | (k, some v) :: rest =>
    match idxmaxP rest with
    | none => some (k, v)
    | some (k2, v2) => if v < v2 then some (k2, v2) else some (k, v)

/-- Embedding of `Series.idxmax()` (source line 272): the label of the
first occurrence of the maximum, skipping NaN entries; `none` models
the ValueError pandas raises when every entry is NaN. -/
def idxmax (s : List (String × Option ℚ)) : Option String := (idxmaxP s).map (fun p => p.1)

/-- Auxiliary of `idxmin`, mirroring `idxmaxP`. -/
def idxminP : List (String × Option ℚ) → Option (String × ℚ)
  | [] => none
  | (_, none) :: rest => idxminP rest
  | (k, some v) :: rest =>
    match idxminP rest with
    | none => some (k, v)
    | some (k2, v2) => if v2 < v then some (k2, v2) else some (k, v)

/-- Embedding of `Series.idxmin()` (source line 273). -/
def idxmin (s : List (String × Option ℚ)) : Option String := (idxminP s).map (fun p => p.1)

/-- Round to the nearest integer, ties to even: the rounding used by
fixed-point float formatting. -/
def roundHalfEven (q : ℚ) : ℤ :=
  if q - (⌊q⌋ : ℚ) < 1/2 then ⌊q⌋
  else if (1 : ℚ)/2 < q - (⌊q⌋ : ℚ) then ⌊q⌋ + 1
  else if ⌊q⌋ % 2 = 0 then ⌊q⌋ else ⌊q⌋ + 1

/-- Text of a finite float under the `.0f` format. -/
def formatF0 (q : ℚ) : String := toString (roundHalfEven q)

/-- Text of a finite float under the `.1f` format. -/
def formatF1 (q : ℚ) : String :=
  (if roundHalfEven (q * 10) < 0 then "-" else "") ++
    toString ((roundHalfEven (q * 10)).natAbs / 10) ++ "." ++
    toString ((roundHalfEven (q * 10)).natAbs % 10)

/-- The `.0f` text of a series mean; the mean of an empty series is NaN
and formats as `nan`. -/
def formatMeanF0 (xs : List ℚ) : String :=
  match meanOpt xs with
  | none => "nan"
  | some q => formatF0 q

/-- The `.1f` text of a series mean divided by 60 (sedentary hours). -/
def formatMeanHoursF1 (xs : List ℚ) : String :=
  match meanOpt xs with
  | none => "nan"
  | some q => formatF1 (q / 60)

/-- Embedding of `summary_df` (source lines 267-274) as it lands in
`analysis_summary.csv` (line 275): six (Metric, Value) rows with every
value as text — `len(df)` and `nunique()` serialise as decimal
integers, the two means use the `.0f` and `.1f` formats of the source
f-strings, and the last two rows are the `idxmax`/`idxmin` labels of
`results['weekly_patterns']`.  An all-NaN weekly series makes
`idxmax` raise a ValueError, modelled as the error branch. -/
def summary_df (df : List Record) : Except String (List (String × String)) :=
  match idxmax (weekly_patterns df), idxmin (weekly_patterns df) with
  | some mx, some mn =>
    Except.ok
      [("Total Records", toString df.length),
       ("Unique Users", toString (uniqueFirst (df.map (fun r => r.id))).length),
       ("Average Daily Steps", formatMeanF0 (df.map (fun r => (r.totalSteps : ℚ)))),
       ("Average Sedentary Hours",
         formatMeanHoursF1 (df.map (fun r => (r.sedentaryMinutes : ℚ)))),
       ("Most Active Day", mx),
       ("Least Active Day", mn)]
  | _, _ => Except.error "ValueError: attempt to get argmax of an empty sequence"

/-! Concrete tables used by witnesses and counterexamples.  Dates are
days since 1970-01-01: day 4 is Monday 1970-01-05, day 5 is Tuesday
1970-01-06. -/

/-- User A, Monday, of the section-8 end-to-end scenario. -/
def specA1 : RawRecord := ⟨1, 4, 3000, 1800, 0, 0, 10, 1430⟩

/-- User A, Tuesday, of the section-8 end-to-end scenario. -/
def specA2 : RawRecord := ⟨1, 5, 12000, 2500, 60, 20, 40, 1320⟩

/-- User B, Monday, of the section-8 end-to-end scenario. -/
def specB1 : RawRecord := ⟨2, 4, 8000, 2000, 0, 0, 0, 0⟩

/-- User B, Tuesday, of the section-8 end-to-end scenario. -/
def specB2 : RawRecord := ⟨2, 5, 6000, 1900, 0, 0, 0, 0⟩

/-- The derived table of the section-8 end-to-end scenario: two users,
two days each. -/
def specTbl : List Record := load_and_clean_data [specA1, specA2, specB1, specB2]

/-- A table of six users and nine records in which user 1 has days in
two different buckets (two Sedentary days of 1000 steps, two Very
Active days of 19000 steps, mean 10000 → Very Active), users 2-5 have
one 3000-step day each and user 6 one 12000-step day. -/
def mixRows : List RawRecord :=
  [⟨1, 4, 1000, 0, 0, 0, 0, 0⟩, ⟨1, 5, 1000, 0, 0, 0, 0, 0⟩,
   ⟨1, 6, 19000, 0, 0, 0, 0, 0⟩, ⟨1, 7, 19000, 0, 0, 0, 0, 0⟩,
   ⟨2, 4, 3000, 0, 0, 0, 0, 0⟩, ⟨3, 4, 3000, 0, 0, 0, 0, 0⟩,
   ⟨4, 4, 3000, 0, 0, 0, 0, 0⟩, ⟨5, 4, 3000, 0, 0, 0, 0, 0⟩,
   ⟨6, 4, 12000, 0, 0, 0, 0, 0⟩]

/-- Derived table of `mixRows`. -/
def mixTbl : List Record := load_and_clean_data mixRows

/-- A one-record table whose only record is Sedentary. -/
def oneSedTbl : List Record := load_and_clean_data [⟨1, 4, 0, 0, 0, 0, 0, 1440⟩]

/-- Two raw rows with equal step counts on Monday and Tuesday, so the
weekly maximum and minimum are both tied between the two days. -/
def tieRows : List RawRecord :=
  [⟨1, 4, 5000, 0, 0, 0, 0, 0⟩, ⟨1, 5, 5000, 0, 0, 0, 0, 0⟩]

/-- Derived table of `tieRows`. -/
def tieTbl : List Record := load_and_clean_data tieRows

/-- The analysis bundle the aggregations produce on `oneSedTbl`; its
distributions carry only the occupied Sedentary bucket. -/
def oneSedResults : AnalysisResults :=
  { basicStats := basic_stats oneSedTbl
    activityDistribution := activity_distribution oneSedTbl
    userActivityLevels := user_activity_levels oneSedTbl
    weeklyPatterns := weekly_patterns oneSedTbl
    weekendComparison := weekend_comparison oneSedTbl }


/-! General lemmas about the aggregation building blocks. -/

theorem countOcc_nil {α : Type} [DecidableEq α] (v : α) : countOcc v ([] : List α) = 0 := rfl

theorem countOcc_cons {α : Type} [DecidableEq α] (v x : α) (xs : List α) :
    countOcc v (x :: xs) = (if x = v then 1 else 0) + countOcc v xs := rfl

theorem eraseAllOcc_nil {α : Type} [DecidableEq α] (v : α) :
    eraseAllOcc v ([] : List α) = [] := rfl

theorem eraseAllOcc_cons {α : Type} [DecidableEq α] (v x : α) (xs : List α) :
    eraseAllOcc v (x :: xs) =
      if x = v then eraseAllOcc v xs else x :: eraseAllOcc v xs := rfl

theorem countOcc_eq_zero_iff {α : Type} [DecidableEq α] {v : α} {l : List α} :
    countOcc v l = 0 ↔ v ∉ l := by
  induction l with
  | nil => simp [countOcc_nil]
  | cons x xs ih =>
    rw [countOcc_cons]
    by_cases hx : x = v
    · rw [if_pos hx]
      subst hx
      simp
    · rw [if_neg hx]
      simp only [Nat.zero_add, ih, List.mem_cons]
      constructor
      · intro h hm
        rcases hm with hm | hm
        · exact hx hm.symm
        · exact h hm
      · intro h hm
        exact h (Or.inr hm)

theorem countOcc_le_length {α : Type} [DecidableEq α] (v : α) (l : List α) :
    countOcc v l ≤ l.length := by
  induction l with
  | nil => simp [countOcc_nil]
  | cons x xs ih =>
    rw [countOcc_cons, List.length_cons]
    by_cases hx : x = v
    · rw [if_pos hx]
      omega
    · rw [if_neg hx]
      omega

theorem mem_eraseAllOcc {α : Type} [DecidableEq α] {w v : α} {l : List α} :
    w ∈ eraseAllOcc v l ↔ w ∈ l ∧ w ≠ v := by
  induction l with
  | nil => simp [eraseAllOcc_nil]
  | cons x xs ih =>
    rw [eraseAllOcc_cons]
    by_cases hx : x = v
    · rw [if_pos hx]
      subst hx
      rw [ih, List.mem_cons]
      constructor
      · rintro ⟨h1, h2⟩
        exact ⟨Or.inr h1, h2⟩
      · rintro ⟨h1 | h1, h2⟩
        · exact absurd h1 h2
        · exact ⟨h1, h2⟩
    · rw [if_neg hx, List.mem_cons, List.mem_cons, ih]
      constructor
      · rintro (h | ⟨h1, h2⟩)
        · subst h
          exact ⟨Or.inl rfl, hx⟩
        · exact ⟨Or.inr h1, h2⟩
      · rintro ⟨h1 | h1, h2⟩
        · exact Or.inl h1
        · exact Or.inr ⟨h1, h2⟩

theorem eraseAllOcc_of_not_mem {α : Type} [DecidableEq α] {v : α} {l : List α}
    (h : v ∉ l) : eraseAllOcc v l = l := by
  induction l with
  | nil => rfl
  | cons x xs ih =>
    have hx : ¬ x = v := by
      intro hxv
      exact h (hxv ▸ List.mem_cons_self x xs)
    have hxs : v ∉ xs := fun hm => h (List.mem_cons_of_mem _ hm)
    rw [eraseAllOcc_cons, if_neg hx, ih hxs]

theorem nodup_eraseAllOcc {α : Type} [DecidableEq α] (v : α) {l : List α}
    (h : l.Nodup) : (eraseAllOcc v l).Nodup := by
  induction l with
  | nil => simp [eraseAllOcc_nil]
  | cons x xs ih =>
    rcases List.nodup_cons.mp h with ⟨hx, hxs⟩
    rw [eraseAllOcc_cons]
    by_cases hxv : x = v
    · rw [if_pos hxv]
      exact ih hxs
    · rw [if_neg hxv]
      refine List.nodup_cons.mpr ⟨?_, ih hxs⟩
      intro hmem
      exact hx (mem_eraseAllOcc.mp hmem).1

theorem uniqueFirst_nil {α : Type} [DecidableEq α] : uniqueFirst ([] : List α) = [] := rfl

theorem uniqueFirst_cons {α : Type} [DecidableEq α] (x : α) (xs : List α) :
    uniqueFirst (x :: xs) = x :: eraseAllOcc x (uniqueFirst xs) := rfl

theorem mem_uniqueFirst {α : Type} [DecidableEq α] {v : α} {l : List α} :
    v ∈ uniqueFirst l ↔ v ∈ l := by
  induction l with
  | nil => simp [uniqueFirst_nil]
  | cons x xs ih =>
    rw [uniqueFirst_cons, List.mem_cons, List.mem_cons]
    by_cases hv : v = x
    · simp [hv]
    · rw [mem_eraseAllOcc, ih]
      constructor
      · rintro (h | ⟨h1, _⟩)
        · exact absurd h hv
        · exact Or.inr h1
      · rintro (h | h)
        · exact absurd h hv
        · exact Or.inr ⟨h, hv⟩

theorem nodup_uniqueFirst {α : Type} [DecidableEq α] (l : List α) :
    (uniqueFirst l).Nodup := by
  induction l with
  | nil => simp [uniqueFirst_nil]
  | cons x xs ih =>
    rw [uniqueFirst_cons]
    refine List.nodup_cons.mpr ⟨?_, nodup_eraseAllOcc x ih⟩
    intro hmem
    exact (mem_eraseAllOcc.mp hmem).2 rfl

theorem countOcc_cons_of_ne {α : Type} [DecidableEq α] {v x : α} (h : ¬ x = v)
    (xs : List α) : countOcc v (x :: xs) = countOcc v xs := by
  rw [countOcc_cons, if_neg h, Nat.zero_add]

theorem sum_map_eraseAllOcc {α : Type} [DecidableEq α] (f : α → ℕ) :
    ∀ (L : List α), L.Nodup → ∀ x ∈ L,
      (L.map f).sum = f x + ((eraseAllOcc x L).map f).sum := by
  intro L
  induction L with
  | nil =>
    intro _ x hx
    cases hx
  | cons y ys ih =>
    intro hL x hx
    rcases List.nodup_cons.mp hL with ⟨hy, hys⟩
    rcases List.mem_cons.mp hx with h | h
    · subst h
      rw [eraseAllOcc_cons, if_pos rfl, eraseAllOcc_of_not_mem hy]
      simp
    · have hyx : ¬ y = x := by
        intro he
        exact hy (he ▸ h)
      rw [eraseAllOcc_cons, if_neg hyx]
      simp only [List.map_cons, List.sum_cons]
      rw [ih hys x h]
      omega

theorem sum_countOcc_uniqueFirst {α : Type} [DecidableEq α] (l : List α) :
    ((uniqueFirst l).map (fun v => countOcc v l)).sum = l.length := by
  induction l with
  | nil => simp [uniqueFirst_nil]
  | cons x xs ih =>
    rw [uniqueFirst_cons]
    simp only [List.map_cons, List.sum_cons, List.length_cons]
    have hcount : ∀ v ∈ eraseAllOcc x (uniqueFirst xs),
        countOcc v (x :: xs) = countOcc v xs := by
      intro v hv
      exact countOcc_cons_of_ne (fun he => (mem_eraseAllOcc.mp hv).2 he.symm) xs
    rw [List.map_congr_left hcount]
    by_cases hx : x ∈ xs
    · have hxu : x ∈ uniqueFirst xs := mem_uniqueFirst.mpr hx
      have hsplit := sum_map_eraseAllOcc (fun v => countOcc v xs)
        (uniqueFirst xs) (nodup_uniqueFirst xs) x hxu
      have hb : (fun v => countOcc v xs) x = countOcc x xs := rfl
      rw [ih, hb] at hsplit
      have hle : countOcc x xs ≤ xs.length := countOcc_le_length x xs
      rw [countOcc_cons, if_pos rfl]
      omega
    · have hxu : x ∉ uniqueFirst xs := fun h => hx (mem_uniqueFirst.mp h)
      rw [eraseAllOcc_of_not_mem hxu, ih]
      have hzero : countOcc x xs = 0 := countOcc_eq_zero_iff.mpr hx
      rw [countOcc_cons, if_pos rfl]
      omega

theorem insertBy_perm {α : Type} (le : α → α → Bool) (a : α) (l : List α) :
    (insertBy le a l).Perm (a :: l) := by
  induction l with
  | nil => exact List.Perm.refl _
  | cons b bs ih =>
    rw [insertBy]
    by_cases h : le a b
    · rw [if_pos h]
    · rw [if_neg h]
      exact (List.Perm.cons b ih).trans (List.Perm.swap a b bs)

theorem sortBy_perm {α : Type} (le : α → α → Bool) (l : List α) :
    (sortBy le l).Perm l := by
  induction l with
  | nil => exact List.Perm.refl _
  | cons a as ih =>
    rw [sortBy]
    exact (insertBy_perm le a (sortBy le as)).trans (List.Perm.cons a ih)

theorem sum_map_countOcc_div {α : Type} [DecidableEq α] (L l : List α) (n : ℚ) :
    (L.map (fun v => (countOcc v l : ℚ) / n * 100)).sum =
      ((L.map (fun v => countOcc v l)).sum : ℚ) / n * 100 := by
  induction L with
  | nil => simp
  | cons x xs ih =>
    simp only [List.map_cons, List.sum_cons, ih]
    push_cast
    ring

theorem sum_value_counts_pct {α : Type} [DecidableEq α] (l : List α) (h : l ≠ []) :
    ((value_counts_pct l).map (fun p => p.2)).sum = 100 := by
  rw [value_counts_pct, List.map_map]
  have hperm := List.Perm.map
    ((fun p => p.2) ∘ (fun p : α × ℕ => (p.1, (p.2 : ℚ) / (l.length : ℚ) * 100)))
    (sortBy_perm (fun a b => b.2 ≤ a.2) (valueCounts l))
  rw [hperm.sum_eq, valueCounts, List.map_map]
  simp only [Function.comp_def]
  rw [sum_map_countOcc_div (uniqueFirst l) l (l.length : ℚ), sum_countOcc_uniqueFirst l]
  have hn : (l.length : ℚ) ≠ 0 := by
    simp only [ne_eq, Nat.cast_eq_zero, List.length_eq_zero]
    exact h
  field_simp

theorem mem_value_counts_pct {α : Type} [DecidableEq α] {l : List α} {v : α} {q : ℚ} :
    (v, q) ∈ value_counts_pct l ↔
      v ∈ l ∧ q = (countOcc v l : ℚ) / (l.length : ℚ) * 100 := by
  rw [value_counts_pct, List.mem_map]
  constructor
  · rintro ⟨p, hp, hpe⟩
    have hp2 : p ∈ valueCounts l := (sortBy_perm _ _).mem_iff.mp hp
    rw [valueCounts, List.mem_map] at hp2
    rcases hp2 with ⟨u, hu, hue⟩
    subst hue
    have h1 : u = v := congrArg Prod.fst hpe
    have h2 : ((countOcc u l : ℚ) / (l.length : ℚ) * 100) = q := congrArg Prod.snd hpe
    subst h1
    exact ⟨mem_uniqueFirst.mp hu, h2.symm⟩
  · rintro ⟨hv, hq⟩
    refine ⟨(v, countOcc v l), ?_, ?_⟩
    · apply (sortBy_perm _ _).mem_iff.mpr
      rw [valueCounts, List.mem_map]
      exact ⟨v, mem_uniqueFirst.mpr hv, rfl⟩
    · rw [hq]

theorem keys_value_counts_pct_nodup {α : Type} [DecidableEq α] (l : List α) :
    ((value_counts_pct l).map (fun p => p.1)).Nodup := by
  rw [value_counts_pct, List.map_map]
  have hperm := List.Perm.map
    ((fun p => p.1) ∘ (fun p : α × ℕ => (p.1, (p.2 : ℚ) / (l.length : ℚ) * 100)))
    (sortBy_perm (fun a b => b.2 ≤ a.2) (valueCounts l))
  rw [hperm.nodup_iff, valueCounts, List.map_map]
  simp only [Function.comp_def]
  simpa using nodup_uniqueFirst l

theorem keys_value_counts_pct_mem {α : Type} [DecidableEq α] (l : List α) (v : α) :
    v ∈ (value_counts_pct l).map (fun p => p.1) ↔ v ∈ l := by
  rw [value_counts_pct, List.map_map]
  have hperm := List.Perm.map
    ((fun p => p.1) ∘ (fun p : α × ℕ => (p.1, (p.2 : ℚ) / (l.length : ℚ) * 100)))
    (sortBy_perm (fun a b => b.2 ≤ a.2) (valueCounts l))
  rw [hperm.mem_iff, valueCounts, List.map_map]
  simp only [Function.comp_def]
  simpa using (mem_uniqueFirst (v := v) (l := l))

theorem seriesGet_eq_some_iff {α β : Type} [DecidableEq α] {s : List (α × β)}
    (h : (s.map (fun p => p.1)).Nodup) {k : α} {b : β} :
    seriesGet s k = some b ↔ (k, b) ∈ s := by
  induction s with
  | nil => simp [seriesGet]
  | cons p ps ih =>
    rw [List.map_cons] at h
    rcases List.nodup_cons.mp h with ⟨hp, hps⟩
    by_cases hk : p.1 = k
    · rw [seriesGet, List.find?_cons_of_pos _ (by simpa using hk)]
      simp only [Option.map, List.mem_cons]
      constructor
      · intro hb
        left
        have hb2 : p.2 = b := by
          cases hb
          rfl
        rw [← hk, ← hb2]
      · rintro (he | hm)
        · have hpb : p.2 = b := (congrArg Prod.snd he).symm
          rw [hpb]
        · exact absurd (List.mem_map.mpr ⟨(k, b), hm, hk.symm⟩) hp
    · rw [seriesGet, List.find?_cons_of_neg _ (by simpa using hk)]
      have hgoal : (List.find? (fun q => decide (q.1 = k)) ps).map (fun q => q.2) =
        seriesGet ps k := rfl
      rw [hgoal, ih hps, List.mem_cons]
      constructor
      · exact Or.inr
      · rintro (he | hm)
        · exact absurd (congrArg Prod.fst he).symm hk
        · exact hm

theorem seriesGet_eq_none_iff {α β : Type} [DecidableEq α] (s : List (α × β)) (k : α) :
    seriesGet s k = none ↔ k ∉ s.map (fun p => p.1) := by
  rw [seriesGet, Option.map_eq_none', List.find?_eq_none]
  constructor
  · intro h hm
    rcases List.mem_map.mp hm with ⟨p, hp, he⟩
    have hne : ¬ p.1 = k := by simpa using h p hp
    exact hne he
  · intro h p hp
    simp only [decide_eq_true_eq]
    intro he
    exact h (List.mem_map.mpr ⟨p, hp, he⟩)

theorem seriesGet_value_counts_pct {α : Type} [DecidableEq α] (l : List α) (v : α) :
    seriesGet (value_counts_pct l) v =
      if v ∈ l then some ((countOcc v l : ℚ) / (l.length : ℚ) * 100) else none := by
  by_cases hv : v ∈ l
  · rw [if_pos hv]
    exact (seriesGet_eq_some_iff (keys_value_counts_pct_nodup l)).mpr
      (mem_value_counts_pct.mpr ⟨hv, rfl⟩)
  · rw [if_neg hv]
    exact (seriesGet_eq_none_iff _ _).mpr (fun hm => hv ((keys_value_counts_pct_mem l v).mp hm))

theorem uniqueFirst_eq_nil_iff {α : Type} [DecidableEq α] {l : List α} :
    uniqueFirst l = [] ↔ l = [] := by
  cases l with
  | nil => simp [uniqueFirst_nil]
  | cons x xs => simp [uniqueFirst_cons]

/-! Theorems for the claims. -/

/-- C1: the activity-level classification is a total function of the
step count with half-open thresholds — below 5000 Sedentary, 5000 up to
but excluding 7500 Lightly Active, 7500 up to but excluding 10000
Fairly Active, from 10000 Very Active — and the six boundary step
counts of the spec land in the stated buckets. -/
theorem C1_classify_half_open_thresholds :
    (∀ s : ℚ,
      (classify_activity_level s = "Sedentary" ↔ s < 5000) ∧
      (classify_activity_level s = "Lightly Active" ↔ 5000 ≤ s ∧ s < 7500) ∧
      (classify_activity_level s = "Fairly Active" ↔ 7500 ≤ s ∧ s < 10000) ∧
      (classify_activity_level s = "Very Active" ↔ 10000 ≤ s)) ∧
    classify_activity_level 4999 = "Sedentary" ∧
    classify_activity_level 5000 = "Lightly Active" ∧
    classify_activity_level 7499 = "Lightly Active" ∧
    classify_activity_level 7500 = "Fairly Active" ∧
    classify_activity_level 9999 = "Fairly Active" ∧
    classify_activity_level 10000 = "Very Active" := by
  constructor
  · intro s
    rw [classify_activity_level]
    split_ifs with h1 h2 h3
    · refine ⟨⟨fun _ => h1, fun _ => rfl⟩, ?_, ?_, ?_⟩
      · exact ⟨fun h => absurd h (by decide), fun h => absurd h1 (not_lt.mpr h.1)⟩
      · exact ⟨fun h => absurd h (by decide), fun h => absurd h1 (by linarith [h.1])⟩
      · exact ⟨fun h => absurd h (by decide), fun h => absurd h1 (by linarith)⟩
    · refine ⟨?_, ⟨fun _ => ⟨not_lt.mp h1, h2⟩, fun _ => rfl⟩, ?_, ?_⟩
      · exact ⟨fun h => absurd h (by decide), fun h => absurd h h1⟩
      · exact ⟨fun h => absurd h (by decide), fun h => absurd h2 (not_lt.mpr h.1)⟩
      · exact ⟨fun h => absurd h (by decide), fun h => absurd h2 (by linarith)⟩
    · refine ⟨?_, ?_, ⟨fun _ => ⟨not_lt.mp h2, h3⟩, fun _ => rfl⟩, ?_⟩
      · exact ⟨fun h => absurd h (by decide), fun h => absurd h h1⟩
      · exact ⟨fun h => absurd h (by decide), fun h => absurd h.2 (not_lt.mpr (not_lt.mp h2))⟩
      · exact ⟨fun h => absurd h (by decide), fun h => absurd h3 (not_lt.mpr h)⟩
    · refine ⟨?_, ?_, ?_, ⟨fun _ => not_lt.mp h3, fun _ => rfl⟩⟩
      · exact ⟨fun h => absurd h (by decide), fun h => absurd h h1⟩
      · exact ⟨fun h => absurd h (by decide), fun h => absurd h.2 h2⟩
      · exact ⟨fun h => absurd h (by decide), fun h => absurd h.2 h3⟩
  · refine ⟨?_, ?_, ?_, ?_, ?_, ?_⟩ <;> norm_num [classify_activity_level]

/-- C2: for every input table, `analyze_data` fails with a `NameError`
at the per-user classification step, because the name
`classify_activity_level` is local to `load_and_clean_data` and is
neither local to `analyze_data` nor bound at module scope; no
`AnalysisResults` value is ever returned. -/
theorem C2_analyze_data_raises_name_error :
    ∀ df : List Record,
      (analyze_data df).1 =
        Except.error "NameError: name classify_activity_level is not defined" ∧
      (resolvesInAnalyzeData "classify_activity_level" = false) ∧
      (∀ res : AnalysisResults, (analyze_data df).1 ≠ Except.ok res) := by
  intro df
  have hres : resolvesInAnalyzeData "classify_activity_level" = false := by decide
  refine ⟨?_, hres, ?_⟩
  · rw [analyze_data]
    rw [if_neg (by rw [hres]; exact Bool.false_ne_true)]
  · intro res h
    rw [analyze_data, if_neg (by rw [hres]; exact Bool.false_ne_true)] at h
    exact Except.noConfusion h

/-- C9: running the aggregator never changes the table it reads: with
the table threaded as explicit state, `analyze_data` returns it exactly
as received, whether it aborts with the NameError or completes. -/
theorem C9_analyze_data_leaves_table_unchanged :
    ∀ df : List Record, (analyze_data df).2 = df := by
  intro df
  rw [analyze_data]
  split <;> rfl

theorem day_order_nodup : day_order.Nodup := by decide

theorem weekly_patterns_keys (df : List Record) :
    (weekly_patterns df).map (fun p => p.1) = day_order := by
  rw [weekly_patterns, List.map_map]
  simp [Function.comp_def]

/-- C5: for every input table, `weeklyPatterns` has exactly 7 entries,
labelled Monday through Sunday in that fixed order; the entry of a day
holds the mean of the `totalSteps` of that day's records, and a day
with no records still appears, holding NaN rather than being omitted. -/
theorem C5_weekly_patterns_fixed_week (df : List Record) (d : String) :
    ((weekly_patterns df).map (fun p => p.1) = day_order ∧
      (weekly_patterns df).length = 7) ∧
    (d ∈ day_order →
      seriesGet (weekly_patterns df) d =
        some (meanOpt ((df.filter (fun r => r.dayOfWeek = d)).map
          (fun r => (r.totalSteps : ℚ)))) ∧
      ((df.filter (fun r => r.dayOfWeek = d)).isEmpty = true →
        seriesGet (weekly_patterns df) d = some none)) := by
  have hkeys := weekly_patterns_keys df
  constructor
  · refine ⟨hkeys, ?_⟩
    have : ((weekly_patterns df).map (fun p => p.1)).length = day_order.length := by
      rw [hkeys]
    simpa using this
  · intro hd
    have hnodup : ((weekly_patterns df).map (fun p => p.1)).Nodup := by
      rw [hkeys]
      exact day_order_nodup
    have hmem : (d, meanOpt ((df.filter (fun r => r.dayOfWeek = d)).map
        (fun r => (r.totalSteps : ℚ)))) ∈ weekly_patterns df := by
      rw [weekly_patterns]
      exact List.mem_map.mpr ⟨d, hd, rfl⟩
    have hlook := (seriesGet_eq_some_iff hnodup).mpr hmem
    refine ⟨hlook, ?_⟩
    intro hempty
    have hnil : df.filter (fun r => r.dayOfWeek = d) = [] := List.isEmpty_iff.mp hempty
    rw [hlook, hnil]
    rfl

theorem oneSedTbl_levels : oneSedTbl.map (fun r => r.activityLevel) = ["Sedentary"] := by
  simp [oneSedTbl, load_and_clean_data, deriveRecord, classify_activity_level]

theorem activity_distribution_oneSedTbl :
    activity_distribution oneSedTbl = [("Sedentary", 100)] := by
  rw [activity_distribution, oneSedTbl_levels]
  norm_num [value_counts_pct, valueCounts, uniqueFirst, eraseAllOcc, countOcc,
    sortBy, insertBy]

/-- C3 counterexample: on a non-empty table whose single record is
Sedentary, the activity distribution contains only the one occupied
label; the other three bucket labels are omitted entirely — looking up
`Very Active` finds no entry at all, rather than a 0% entry. -/
theorem C3_counterexample_zero_bucket_omitted :
    oneSedTbl ≠ [] ∧
    (activity_distribution oneSedTbl).map (fun p => p.1) = ["Sedentary"] ∧
    "Very Active" ∉ (activity_distribution oneSedTbl).map (fun p => p.1) ∧
    seriesGet (activity_distribution oneSedTbl) "Very Active" = none := by
  refine ⟨by decide, ?_, ?_, ?_⟩
  · rw [activity_distribution_oneSedTbl]
    rfl
  · rw [activity_distribution_oneSedTbl]
    decide
  · rw [activity_distribution_oneSedTbl]
    decide

/-- C3 as amended: for every non-empty derived table, the activity
distribution is the percentage of records (not users) per bucket and
its percentages sum to exactly 100, but it contains exactly the labels
that occur in at least one record — a bucket with zero matching records
is omitted from the result instead of being reported as 0%. -/
theorem C3_record_distribution_amended :
    ∀ df : List Record, df ≠ [] →
      ((activity_distribution df).map (fun p => p.2)).sum = 100 ∧
      (∀ v : String, v ∈ (activity_distribution df).map (fun p => p.1) ↔
        v ∈ df.map (fun r => r.activityLevel)) ∧
      (∀ v q, seriesGet (activity_distribution df) v = some q →
        q = (countOcc v (df.map (fun r => r.activityLevel)) : ℚ) / (df.length : ℚ) * 100) := by
  intro df hdf
  have hnil : df.map (fun r => r.activityLevel) ≠ [] := by
    simpa using hdf
  refine ⟨sum_value_counts_pct _ hnil, ?_, ?_⟩
  · intro v
    exact keys_value_counts_pct_mem _ v
  · intro v q hq
    rw [activity_distribution, seriesGet_value_counts_pct] at hq
    by_cases hv : v ∈ df.map (fun r => r.activityLevel)
    · rw [if_pos hv] at hq
      have := Option.some.inj hq
      rw [← this, List.length_map]
    · rw [if_neg hv] at hq
      exact Option.noConfusion hq

/-- C7: when a record has zero total active minutes and zero sedentary
minutes, the derived `activityPercentage` is the defined NaN value
(`none`) rather than a fault, and the derivation of all the other
fields still completes: loading never drops or fails a row. -/
theorem C7_activity_percentage_division_by_zero :
    ∀ r : RawRecord,
      r.veryActiveMinutes + r.fairlyActiveMinutes + r.lightlyActiveMinutes = 0 →
      r.sedentaryMinutes = 0 →
      (deriveRecord r).activityPercentage = none ∧
      (deriveRecord r).totalActiveMinutes = 0 ∧
      (deriveRecord r).activityLevel = classify_activity_level (r.totalSteps : ℚ) ∧
      (deriveRecord r).dayOfWeek = dayNameOf r.activityDate ∧
      (∀ rows : List RawRecord, (load_and_clean_data rows).length = rows.length) := by
  intro r h1 h2
  refine ⟨?_, ?_, rfl, rfl, ?_⟩
  · show (if r.veryActiveMinutes + r.fairlyActiveMinutes + r.lightlyActiveMinutes +
      r.sedentaryMinutes = 0 then none else _) = none
    rw [if_pos (by rw [h1, h2]; norm_num)]
  · show r.veryActiveMinutes + r.fairlyActiveMinutes + r.lightlyActiveMinutes = 0
    exact h1
  · intro rows
    simp [load_and_clean_data]

theorem specTbl_levels : specTbl.map (fun r => r.activityLevel) =
    ["Sedentary", "Very Active", "Fairly Active", "Lightly Active"] := by
  simp [specTbl, specA1, specA2, specB1, specB2, load_and_clean_data, deriveRecord,
    classify_activity_level]
  norm_num

theorem specTbl_sorted_counts : sortBy (fun a b => b.2 ≤ a.2)
    (valueCounts (["Sedentary", "Very Active", "Fairly Active", "Lightly Active"] : List String)) =
    [("Sedentary", 1), ("Very Active", 1), ("Fairly Active", 1), ("Lightly Active", 1)] := by
  decide

theorem specTbl_ad : activity_distribution specTbl =
    [("Sedentary", 25), ("Very Active", 25), ("Fairly Active", 25), ("Lightly Active", 25)] := by
  rw [activity_distribution, value_counts_pct, specTbl_levels, specTbl_sorted_counts]
  norm_num

theorem specTbl_ids : specTbl.map (fun r => r.id) = [1, 1, 2, 2] := by
  simp [specTbl, specA1, specA2, specB1, specB2, load_and_clean_data, deriveRecord]

theorem specTbl_sorted_ids :
    sortBy (fun a b => a ≤ b) (uniqueFirst ([1, 1, 2, 2] : List ℤ)) = [1, 2] := by
  decide

theorem specTbl_user_means : groupby_id_mean_steps specTbl = [(1, 7500), (2, 7000)] := by
  rw [groupby_id_mean_steps, specTbl_ids, specTbl_sorted_ids]
  simp [specTbl, specA1, specA2, specB1, specB2, load_and_clean_data, deriveRecord,
    classify_activity_level, meanNE]
  norm_num

theorem specTbl_user_labels : (groupby_id_mean_steps specTbl).map
    (fun p => classify_activity_level p.2) = ["Fairly Active", "Lightly Active"] := by
  rw [specTbl_user_means]
  norm_num [classify_activity_level]

theorem specTbl_user_sorted_counts : sortBy (fun a b => b.2 ≤ a.2)
    (valueCounts (["Fairly Active", "Lightly Active"] : List String)) =
    [("Fairly Active", 1), ("Lightly Active", 1)] := by
  decide

theorem specTbl_ual : user_activity_levels specTbl =
    [("Fairly Active", 50), ("Lightly Active", 50)] := by
  rw [user_activity_levels, value_counts_pct, specTbl_user_labels,
    specTbl_user_sorted_counts]
  norm_num

theorem specTbl_monday_steps : (specTbl.filter (fun r => r.dayOfWeek = "Monday")).map
    (fun r => (r.totalSteps : ℚ)) = [3000, 8000] := by
  simp [specTbl, specA1, specA2, specB1, specB2, load_and_clean_data, deriveRecord,
    classify_activity_level, dayNameOf, day_order]

theorem mixTbl_levels : mixTbl.map (fun r => r.activityLevel) =
    ["Sedentary", "Sedentary", "Very Active", "Very Active", "Sedentary",
     "Sedentary", "Sedentary", "Sedentary", "Very Active"] := by
  simp [mixTbl, mixRows, load_and_clean_data, deriveRecord, classify_activity_level]
  norm_num

theorem mixTbl_sorted_counts : sortBy (fun a b => b.2 ≤ a.2)
    (valueCounts (["Sedentary", "Sedentary", "Very Active", "Very Active", "Sedentary",
      "Sedentary", "Sedentary", "Sedentary", "Very Active"] : List String)) =
    [("Sedentary", 6), ("Very Active", 3)] := by
  decide

theorem mixTbl_ad : activity_distribution mixTbl =
    [("Sedentary", 200/3), ("Very Active", 100/3)] := by
  rw [activity_distribution, value_counts_pct, mixTbl_levels, mixTbl_sorted_counts]
  norm_num

theorem mixTbl_ids : mixTbl.map (fun r => r.id) = [1, 1, 1, 1, 2, 3, 4, 5, 6] := by
  simp [mixTbl, mixRows, load_and_clean_data, deriveRecord]

theorem mixTbl_sorted_ids : sortBy (fun a b => a ≤ b)
    (uniqueFirst ([1, 1, 1, 1, 2, 3, 4, 5, 6] : List ℤ)) = [1, 2, 3, 4, 5, 6] := by
  decide

theorem mixTbl_user_means : groupby_id_mean_steps mixTbl =
    [(1, 10000), (2, 3000), (3, 3000), (4, 3000), (5, 3000), (6, 12000)] := by
  rw [groupby_id_mean_steps, mixTbl_ids, mixTbl_sorted_ids]
  simp [mixTbl, mixRows, load_and_clean_data, deriveRecord, classify_activity_level,
    meanNE]
  norm_num

theorem mixTbl_user_labels : (groupby_id_mean_steps mixTbl).map
    (fun p => classify_activity_level p.2) =
    ["Very Active", "Sedentary", "Sedentary", "Sedentary", "Sedentary", "Very Active"] := by
  rw [mixTbl_user_means]
  norm_num [classify_activity_level]

theorem mixTbl_user_sorted_counts : sortBy (fun a b => b.2 ≤ a.2)
    (valueCounts (["Very Active", "Sedentary", "Sedentary", "Sedentary", "Sedentary",
      "Very Active"] : List String)) = [("Sedentary", 4), ("Very Active", 2)] := by
  decide

theorem mixTbl_ual : user_activity_levels mixTbl =
    [("Sedentary", 200/3), ("Very Active", 100/3)] := by
  rw [user_activity_levels, value_counts_pct, mixTbl_user_labels, mixTbl_user_sorted_counts]
  norm_num

theorem groupby_keys (df : List Record) :
    (groupby_id_mean_steps df).map (fun p => p.1) =
      sortBy (fun a b => a ≤ b) (uniqueFirst (df.map (fun r => r.id))) := by
  rw [groupby_id_mean_steps, List.map_map]
  simp [Function.comp_def]

theorem groupby_keys_mem (df : List Record) (i : ℤ) :
    i ∈ (groupby_id_mean_steps df).map (fun p => p.1) ↔ i ∈ df.map (fun r => r.id) := by
  rw [groupby_keys, (sortBy_perm _ _).mem_iff]
  exact mem_uniqueFirst

theorem groupby_mean (df : List Record) {i : ℤ} {m : ℚ}
    (h : (i, m) ∈ groupby_id_mean_steps df) :
    m = ((df.filter (fun r => r.id = i)).map (fun r => (r.totalSteps : ℚ))).sum /
      ((df.filter (fun r => r.id = i)).length : ℚ) := by
  rw [groupby_id_mean_steps, List.mem_map] at h
  rcases h with ⟨j, hj, he⟩
  have h1 : j = i := congrArg Prod.fst he
  subst h1
  have h2 : meanNE ((df.filter (fun r => r.id = j)).map (fun r => (r.totalSteps : ℚ))) = m :=
    congrArg Prod.snd he
  rw [← h2, meanNE, List.length_map]

theorem groupby_length (df : List Record) :
    (groupby_id_mean_steps df).length = (uniqueFirst (df.map (fun r => r.id))).length := by
  rw [groupby_id_mean_steps, List.length_map, (sortBy_perm _ _).length_eq]

/-- C6: on the section-8 two-users-by-two-days input, the record-level
activity distribution puts 25% in each of the four buckets, user A
(mean 7500 steps) sits exactly on the 7500 boundary and classifies as
Fairly Active under the half-open rule, and the Monday entry of the
weekly pattern is the mean of 3000 and 8000, namely 5500. -/
theorem C6_section8_scenario :
    seriesGet (activity_distribution specTbl) "Sedentary" = some 25 ∧
    seriesGet (activity_distribution specTbl) "Lightly Active" = some 25 ∧
    seriesGet (activity_distribution specTbl) "Fairly Active" = some 25 ∧
    seriesGet (activity_distribution specTbl) "Very Active" = some 25 ∧
    seriesGet (groupby_id_mean_steps specTbl) 1 = some 7500 ∧
    classify_activity_level 7500 = "Fairly Active" ∧
    seriesGet (weekly_patterns specTbl) "Monday" = some (some 5500) := by
  refine ⟨?_, ?_, ?_, ?_, ?_, ?_, ?_⟩
  · rw [specTbl_ad]
    simp [seriesGet]
  · rw [specTbl_ad]
    simp [seriesGet]
  · rw [specTbl_ad]
    simp [seriesGet]
  · rw [specTbl_ad]
    simp [seriesGet]
  · rw [specTbl_user_means]
    simp [seriesGet]
  · norm_num [classify_activity_level]
  · have hnodup : ((weekly_patterns specTbl).map (fun p => p.1)).Nodup := by
      rw [weekly_patterns_keys]
      exact day_order_nodup
    have hmem : ("Monday", meanOpt ((specTbl.filter (fun r => r.dayOfWeek = "Monday")).map
        (fun r => (r.totalSteps : ℚ)))) ∈ weekly_patterns specTbl := by
      rw [weekly_patterns]
      exact List.mem_map.mpr ⟨"Monday", by decide, rfl⟩
    have hmean : meanOpt ((specTbl.filter (fun r => r.dayOfWeek = "Monday")).map
        (fun r => (r.totalSteps : ℚ))) = some 5500 := by
      rw [specTbl_monday_steps]
      norm_num [meanOpt]
    rw [← hmean]
    exact (seriesGet_eq_some_iff hnodup).mpr hmem

/-- C4 as amended: `userActivityLevels` classifies each user by the
mean of `totalSteps` over that user's records (every group key is a
user id of the table and carries exactly that mean), reports the
percentage of users — numerator a user count, denominator the number
of distinct users — in each occupied bucket, and its percentages sum
to exactly 100; the statistic CAN differ from `activityDistribution`
(on the section-8 table, where user A has days in two different
buckets, the two disagree), but need not differ on every table with a
mixed-bucket user. -/
theorem C4_user_levels_amended :
    (∀ df : List Record, df ≠ [] →
      ((user_activity_levels df).map (fun p => p.2)).sum = 100 ∧
      (∀ i : ℤ, i ∈ (groupby_id_mean_steps df).map (fun p => p.1) ↔
        i ∈ df.map (fun r => r.id)) ∧
      (∀ i m, (i, m) ∈ groupby_id_mean_steps df →
        m = ((df.filter (fun r => r.id = i)).map (fun r => (r.totalSteps : ℚ))).sum /
          ((df.filter (fun r => r.id = i)).length : ℚ)) ∧
      (∀ v q, seriesGet (user_activity_levels df) v = some q →
        q = (countOcc v ((groupby_id_mean_steps df).map
            (fun p => classify_activity_level p.2)) : ℚ) /
          ((uniqueFirst (df.map (fun r => r.id))).length : ℚ) * 100)) ∧
    (user_activity_levels specTbl ≠ activity_distribution specTbl ∧
      ∃ r1 ∈ specTbl, ∃ r2 ∈ specTbl, r1.id = r2.id ∧ r1.activityLevel ≠ r2.activityLevel) := by
  constructor
  · intro df hdf
    have hids : df.map (fun r => r.id) ≠ [] := by simpa using hdf
    have huf : uniqueFirst (df.map (fun r => r.id)) ≠ [] := by
      intro h
      exact hids (uniqueFirst_eq_nil_iff.mp h)
    have hlen : (groupby_id_mean_steps df).length =
        (uniqueFirst (df.map (fun r => r.id))).length := groupby_length df
    have hlabels : (groupby_id_mean_steps df).map (fun p => classify_activity_level p.2) ≠ [] := by
      intro h
      have h0 : (groupby_id_mean_steps df).length = 0 := by
        simpa using congrArg List.length h
      rw [hlen] at h0
      exact huf (List.length_eq_zero.mp h0)
    refine ⟨sum_value_counts_pct _ hlabels, groupby_keys_mem df, ?_, ?_⟩
    · intro i m hm
      exact groupby_mean df hm
    · intro v q hq
      rw [user_activity_levels, seriesGet_value_counts_pct] at hq
      by_cases hv : v ∈ (groupby_id_mean_steps df).map (fun p => classify_activity_level p.2)
      · rw [if_pos hv] at hq
        have he := Option.some.inj hq
        rw [← he, List.length_map, hlen]
      · rw [if_neg hv] at hq
        exact Option.noConfusion hq
  · constructor
    · rw [specTbl_ual, specTbl_ad]
      intro h
      exact absurd (congrArg (List.map (fun p : String × ℚ => p.1)) h) (by decide)
    · refine ⟨deriveRecord specA1, ?_, deriveRecord specA2, ?_, rfl, ?_⟩
      · exact List.mem_map.mpr ⟨specA1, by decide, rfl⟩
      · exact List.mem_map.mpr ⟨specA2, by decide, rfl⟩
      · have e1 : (deriveRecord specA1).activityLevel = "Sedentary" := by
          norm_num [deriveRecord, specA1, classify_activity_level]
        have e2 : (deriveRecord specA2).activityLevel = "Very Active" := by
          norm_num [deriveRecord, specA2, classify_activity_level]
        rw [e1, e2]
        decide

/-- C4 counterexample: a table in which user 1 has days in two
different buckets (Sedentary and Very Active) yet the user-level
distribution coincides exactly with the record-level distribution —
both put two thirds on Sedentary and one third on Very Active — so a
mixed-bucket user does not force the two statistics apart. -/
theorem C4_counterexample_mixed_user_equal_distributions :
    (∃ r1 ∈ mixTbl, ∃ r2 ∈ mixTbl, r1.id = r2.id ∧ r1.activityLevel ≠ r2.activityLevel) ∧
    user_activity_levels mixTbl = activity_distribution mixTbl := by
  constructor
  · refine ⟨deriveRecord ⟨1, 4, 1000, 0, 0, 0, 0, 0⟩, ?_,
      deriveRecord ⟨1, 6, 19000, 0, 0, 0, 0, 0⟩, ?_, rfl, ?_⟩
    · exact List.mem_map.mpr ⟨⟨1, 4, 1000, 0, 0, 0, 0, 0⟩, by decide, rfl⟩
    · exact List.mem_map.mpr ⟨⟨1, 6, 19000, 0, 0, 0, 0, 0⟩, by decide, rfl⟩
    · have e1 : (deriveRecord ⟨1, 4, 1000, 0, 0, 0, 0, 0⟩).activityLevel = "Sedentary" := by
        norm_num [deriveRecord, classify_activity_level]
      have e2 : (deriveRecord ⟨1, 6, 19000, 0, 0, 0, 0, 0⟩).activityLevel = "Very Active" := by
        norm_num [deriveRecord, classify_activity_level]
      rw [e1, e2]
      decide
  · rw [mixTbl_ual, mixTbl_ad]

theorem lookupPct_some {s : List (String × ℚ)} {k : String} {q : ℚ}
    (h : seriesGet s k = some q) : lookupPct s k = Except.ok q := by
  rw [lookupPct, h]

theorem lookupPct_none {s : List (String × ℚ)} {k : String}
    (h : seriesGet s k = none) : lookupPct s k = Except.error ("KeyError: " ++ k) := by
  rw [lookupPct, h]

theorem except_bind_ok {ε α β : Type} (a : α) (f : α → Except ε β) :
    (Except.ok a >>= f) = f a := rfl

theorem except_bind_error {ε α β : Type} (e : ε) (f : α → Except ε β) :
    ((Except.error e : Except ε α) >>= f) = Except.error e := rfl

/-- C8: whenever one of the bucket labels the detailed page references
is absent from the activity distribution or from the user levels (as
happens when a zero-count bucket is omitted), rendering the page fails
with a `KeyError` that names an absent referenced label, not a generic
failure. -/
theorem C8_render_fails_with_named_missing_key :
    ∀ res : AnalysisResults,
      (∃ k, k ∈ report_levels ∧
        (seriesGet res.activityDistribution k = none ∨
          seriesGet res.userActivityLevels k = none)) →
      ∃ k, k ∈ report_levels ∧
        (seriesGet res.activityDistribution k = none ∨
          seriesGet res.userActivityLevels k = none) ∧
        render_detailed_page res = Except.error ("KeyError: " ++ k) := by
  intro res hex
  rcases h1 : seriesGet res.activityDistribution "Sedentary" with _ | q1
  · exact ⟨"Sedentary", by decide, Or.inl h1, by
      rw [render_detailed_page, lookupPct_none h1, except_bind_error]⟩
  rcases h2 : seriesGet res.activityDistribution "Lightly Active" with _ | q2
  · exact ⟨"Lightly Active", by decide, Or.inl h2, by
      rw [render_detailed_page, lookupPct_some h1, except_bind_ok,
        lookupPct_none h2, except_bind_error]⟩
  rcases h3 : seriesGet res.activityDistribution "Fairly Active" with _ | q3
  · exact ⟨"Fairly Active", by decide, Or.inl h3, by
      rw [render_detailed_page, lookupPct_some h1, except_bind_ok,
        lookupPct_some h2, except_bind_ok, lookupPct_none h3, except_bind_error]⟩
  rcases h4 : seriesGet res.activityDistribution "Very Active" with _ | q4
  · exact ⟨"Very Active", by decide, Or.inl h4, by
      rw [render_detailed_page, lookupPct_some h1, except_bind_ok,
        lookupPct_some h2, except_bind_ok, lookupPct_some h3, except_bind_ok,
        lookupPct_none h4, except_bind_error]⟩
  rcases h5 : seriesGet res.userActivityLevels "Sedentary" with _ | q5
  · exact ⟨"Sedentary", by decide, Or.inr h5, by
      rw [render_detailed_page, lookupPct_some h1, except_bind_ok,
        lookupPct_some h2, except_bind_ok, lookupPct_some h3, except_bind_ok,
        lookupPct_some h4, except_bind_ok, lookupPct_none h5, except_bind_error]⟩
  rcases h6 : seriesGet res.userActivityLevels "Lightly Active" with _ | q6
  · exact ⟨"Lightly Active", by decide, Or.inr h6, by
      rw [render_detailed_page, lookupPct_some h1, except_bind_ok,
        lookupPct_some h2, except_bind_ok, lookupPct_some h3, except_bind_ok,
        lookupPct_some h4, except_bind_ok, lookupPct_some h5, except_bind_ok,
        lookupPct_none h6, except_bind_error]⟩
  rcases h7 : seriesGet res.userActivityLevels "Fairly Active" with _ | q7
  · exact ⟨"Fairly Active", by decide, Or.inr h7, by
      rw [render_detailed_page, lookupPct_some h1, except_bind_ok,
        lookupPct_some h2, except_bind_ok, lookupPct_some h3, except_bind_ok,
        lookupPct_some h4, except_bind_ok, lookupPct_some h5, except_bind_ok,
        lookupPct_some h6, except_bind_ok, lookupPct_none h7, except_bind_error]⟩
  rcases h8 : seriesGet res.userActivityLevels "Very Active" with _ | q8
  · exact ⟨"Very Active", by decide, Or.inr h8, by
      rw [render_detailed_page, lookupPct_some h1, except_bind_ok,
        lookupPct_some h2, except_bind_ok, lookupPct_some h3, except_bind_ok,
        lookupPct_some h4, except_bind_ok, lookupPct_some h5, except_bind_ok,
        lookupPct_some h6, except_bind_ok, lookupPct_some h7, except_bind_ok,
        lookupPct_none h8, except_bind_error]⟩
  exfalso
  rcases hex with ⟨k, hk, hnone⟩
  fin_cases hk
  · rcases hnone with h | h
    · rw [h1] at h
      exact Option.noConfusion h
    · rw [h5] at h
      exact Option.noConfusion h
  · rcases hnone with h | h
    · rw [h2] at h
      exact Option.noConfusion h
    · rw [h6] at h
      exact Option.noConfusion h
  · rcases hnone with h | h
    · rw [h3] at h
      exact Option.noConfusion h
    · rw [h7] at h
      exact Option.noConfusion h
  · rcases hnone with h | h
    · rw [h4] at h
      exact Option.noConfusion h
    · rw [h8] at h
      exact Option.noConfusion h

theorem idxmaxP_eq_none_iff {s : List (String × Option ℚ)} :
    idxmaxP s = none ↔ ∀ p ∈ s, p.2 = none := by
  induction s with
  | nil => simp [idxmaxP]
  | cons p rest ih =>
    obtain ⟨k, v⟩ := p
    cases v with
    | none =>
      rw [show idxmaxP ((k, none) :: rest) = idxmaxP rest from rfl, ih]
      simp [List.forall_mem_cons]
    | some v =>
      constructor
      · intro h
        rcases hm : idxmaxP rest with _ | ⟨k2, v2⟩
        · rw [show idxmaxP ((k, some v) :: rest) =
            (match idxmaxP rest with
             | none => some (k, v)
             | some (k2, v2) => if v < v2 then some (k2, v2) else some (k, v)) from rfl,
            hm] at h
          exact Option.noConfusion h
        · rw [show idxmaxP ((k, some v) :: rest) =
            (match idxmaxP rest with
             | none => some (k, v)
             | some (k2, v2) => if v < v2 then some (k2, v2) else some (k, v)) from rfl,
            hm] at h
          have h2 : (if v < v2 then some (k2, v2) else some (k, v)) = none := h
          by_cases hv : v < v2
          · rw [if_pos hv] at h2
            exact Option.noConfusion h2
          · rw [if_neg hv] at h2
            exact Option.noConfusion h2
      · intro h
        exact absurd (h (k, some v) (List.mem_cons_self _ _)) (by simp)

theorem idxmaxP_ub {s : List (String × Option ℚ)} {k : String} {v : ℚ}
    (h : idxmaxP s = some (k, v)) : ∀ p ∈ s, ∀ w : ℚ, p.2 = some w → w ≤ v := by
  induction s generalizing k v with
  | nil => exact fun p hp => absurd hp (List.not_mem_nil p)
  | cons q rest ih =>
    obtain ⟨k1, v1⟩ := q
    cases v1 with
    | none =>
      rw [show idxmaxP ((k1, none) :: rest) = idxmaxP rest from rfl] at h
      intro p hp w hw
      rcases List.mem_cons.mp hp with he | hm
      · rw [he] at hw
        exact Option.noConfusion hw
      · exact ih h p hm w hw
    | some v1 =>
      rw [show idxmaxP ((k1, some v1) :: rest) =
        (match idxmaxP rest with
         | none => some (k1, v1)
         | some (k2, v2) => if v1 < v2 then some (k2, v2) else some (k1, v1)) from rfl] at h
      rcases hm : idxmaxP rest with _ | ⟨k2, v2⟩ <;> rw [hm] at h
      · have h2 : some (k1, v1) = some (k, v) := h
        have hv : v1 = v := congrArg (fun p => p.2) (Option.some.inj h2)
        intro p hp w hw
        rcases List.mem_cons.mp hp with he | hmem
        · rw [he] at hw
          have hwv : w = v1 := Option.some.inj hw.symm
          rw [hwv, hv]
        · have hall := idxmaxP_eq_none_iff.mp hm p hmem
          rw [hall] at hw
          exact Option.noConfusion hw
      · have h2 : (if v1 < v2 then some (k2, v2) else some (k1, v1)) = some (k, v) := h
        by_cases hv : v1 < v2
        · rw [if_pos hv] at h2
          have hv2 : v2 = v := congrArg (fun p => p.2) (Option.some.inj h2)
          intro p hp w hw
          rcases List.mem_cons.mp hp with he | hmem
          · rw [he] at hw
            have hwv : w = v1 := Option.some.inj hw.symm
            rw [hwv, ← hv2]
            exact le_of_lt hv
          · rw [← hv2]
            exact ih hm p hmem w hw
        · rw [if_neg hv] at h2
          have hv1 : v1 = v := congrArg (fun p => p.2) (Option.some.inj h2)
          intro p hp w hw
          rcases List.mem_cons.mp hp with he | hmem
          · rw [he] at hw
            have hwv : w = v1 := Option.some.inj hw.symm
            rw [hwv, hv1]
          · have hle : w ≤ v2 := ih hm p hmem w hw
            rw [← hv1]
            exact le_trans hle (not_lt.mp hv)

theorem idxmaxP_first {s : List (String × Option ℚ)} {k : String} {v : ℚ}
    (h : idxmaxP s = some (k, v)) :
    ∃ s1 s2, s = s1 ++ (k, some v) :: s2 ∧
      ∀ p ∈ s1, ∀ w : ℚ, p.2 = some w → w < v := by
  induction s generalizing k v with
  | nil => exact Option.noConfusion h
  | cons q rest ih =>
    obtain ⟨k1, v1⟩ := q
    cases v1 with
    | none =>
      rw [show idxmaxP ((k1, none) :: rest) = idxmaxP rest from rfl] at h
      rcases ih h with ⟨s1, s2, hsplit, hcond⟩
      refine ⟨(k1, none) :: s1, s2, by rw [hsplit]; rfl, ?_⟩
      intro p hp w hw
      rcases List.mem_cons.mp hp with he | hmem
      · rw [he] at hw
        exact Option.noConfusion hw
      · exact hcond p hmem w hw
    | some v1 =>
      rw [show idxmaxP ((k1, some v1) :: rest) =
        (match idxmaxP rest with
         | none => some (k1, v1)
         | some (k2, v2) => if v1 < v2 then some (k2, v2) else some (k1, v1)) from rfl] at h
      rcases hm : idxmaxP rest with _ | ⟨k2, v2⟩ <;> rw [hm] at h
      · have h2 : some (k1, v1) = some (k, v) := h
        have hk : k1 = k := congrArg (fun p => p.1) (Option.some.inj h2)
        have hv : v1 = v := congrArg (fun p => p.2) (Option.some.inj h2)
        refine ⟨[], rest, ?_, fun p hp => absurd hp (List.not_mem_nil p)⟩
        rw [← hk, ← hv]
        rfl
      · have h2 : (if v1 < v2 then some (k2, v2) else some (k1, v1)) = some (k, v) := h
        by_cases hvv : v1 < v2
        · rw [if_pos hvv] at h2
          have hk : k2 = k := congrArg (fun p => p.1) (Option.some.inj h2)
          have hv : v2 = v := congrArg (fun p => p.2) (Option.some.inj h2)
          rcases ih (hk ▸ hv ▸ hm) with ⟨s1, s2, hsplit, hcond⟩
          refine ⟨(k1, some v1) :: s1, s2, by rw [hsplit]; rfl, ?_⟩
          intro p hp w hw
          rcases List.mem_cons.mp hp with he | hmem
          · rw [he] at hw
            have hwv : w = v1 := Option.some.inj hw.symm
            rw [hwv, ← hv]
            exact hvv
          · exact hcond p hmem w hw
        · rw [if_neg hvv] at h2
          have hk : k1 = k := congrArg (fun p => p.1) (Option.some.inj h2)
          have hv : v1 = v := congrArg (fun p => p.2) (Option.some.inj h2)
          refine ⟨[], rest, ?_, fun p hp => absurd hp (List.not_mem_nil p)⟩
          rw [← hk, ← hv]
          rfl

theorem idxminP_eq_none_iff {s : List (String × Option ℚ)} :
    idxminP s = none ↔ ∀ p ∈ s, p.2 = none := by
  induction s with
  | nil => simp [idxminP]
  | cons p rest ih =>
    obtain ⟨k, v⟩ := p
    cases v with
    | none =>
      rw [show idxminP ((k, none) :: rest) = idxminP rest from rfl, ih]
      simp [List.forall_mem_cons]
    | some v =>
      constructor
      · intro h
        rcases hm : idxminP rest with _ | ⟨k2, v2⟩
        · rw [show idxminP ((k, some v) :: rest) =
            (match idxminP rest with
             | none => some (k, v)
             | some (k2, v2) => if v2 < v then some (k2, v2) else some (k, v)) from rfl,
            hm] at h
          exact Option.noConfusion h
        · rw [show idxminP ((k, some v) :: rest) =
            (match idxminP rest with
             | none => some (k, v)
             | some (k2, v2) => if v2 < v then some (k2, v2) else some (k, v)) from rfl,
            hm] at h
          have h2 : (if v2 < v then some (k2, v2) else some (k, v)) = none := h
          by_cases hv : v2 < v
          · rw [if_pos hv] at h2
            exact Option.noConfusion h2
          · rw [if_neg hv] at h2
            exact Option.noConfusion h2
      · intro h
        exact absurd (h (k, some v) (List.mem_cons_self _ _)) (by simp)

theorem idxminP_lb {s : List (String × Option ℚ)} {k : String} {v : ℚ}
    (h : idxminP s = some (k, v)) : ∀ p ∈ s, ∀ w : ℚ, p.2 = some w → v ≤ w := by
  induction s generalizing k v with
  | nil => exact fun p hp => absurd hp (List.not_mem_nil p)
  | cons q rest ih =>
    obtain ⟨k1, v1⟩ := q
    cases v1 with
    | none =>
      rw [show idxminP ((k1, none) :: rest) = idxminP rest from rfl] at h
      intro p hp w hw
      rcases List.mem_cons.mp hp with he | hm
      · rw [he] at hw
        exact Option.noConfusion hw
      · exact ih h p hm w hw
    | some v1 =>
      rw [show idxminP ((k1, some v1) :: rest) =
        (match idxminP rest with
         | none => some (k1, v1)
         | some (k2, v2) => if v2 < v1 then some (k2, v2) else some (k1, v1)) from rfl] at h
      rcases hm : idxminP rest with _ | ⟨k2, v2⟩ <;> rw [hm] at h
      · have h2 : some (k1, v1) = some (k, v) := h
        have hv : v1 = v := congrArg (fun p => p.2) (Option.some.inj h2)
        intro p hp w hw
        rcases List.mem_cons.mp hp with he | hmem
        · rw [he] at hw
          have hwv : w = v1 := Option.some.inj hw.symm
          rw [hwv, hv]
        · have hall := idxminP_eq_none_iff.mp hm p hmem
          rw [hall] at hw
          exact Option.noConfusion hw
      · have h2 : (if v2 < v1 then some (k2, v2) else some (k1, v1)) = some (k, v) := h
        by_cases hv : v2 < v1
        · rw [if_pos hv] at h2
          have hv2 : v2 = v := congrArg (fun p => p.2) (Option.some.inj h2)
          intro p hp w hw
          rcases List.mem_cons.mp hp with he | hmem
          · rw [he] at hw
            have hwv : w = v1 := Option.some.inj hw.symm
            rw [hwv, ← hv2]
            exact le_of_lt hv
          · rw [← hv2]
            exact ih hm p hmem w hw
        · rw [if_neg hv] at h2
          have hv1 : v1 = v := congrArg (fun p => p.2) (Option.some.inj h2)
          intro p hp w hw
          rcases List.mem_cons.mp hp with he | hmem
          · rw [he] at hw
            have hwv : w = v1 := Option.some.inj hw.symm
            rw [hwv, hv1]
          · have hle : v2 ≤ w := ih hm p hmem w hw
            rw [← hv1]
            exact le_trans (not_lt.mp hv) hle

theorem idxminP_first {s : List (String × Option ℚ)} {k : String} {v : ℚ}
    (h : idxminP s = some (k, v)) :
    ∃ s1 s2, s = s1 ++ (k, some v) :: s2 ∧
      ∀ p ∈ s1, ∀ w : ℚ, p.2 = some w → v < w := by
  induction s generalizing k v with
  | nil => exact Option.noConfusion h
  | cons q rest ih =>
    obtain ⟨k1, v1⟩ := q
    cases v1 with
    | none =>
      rw [show idxminP ((k1, none) :: rest) = idxminP rest from rfl] at h
      rcases ih h with ⟨s1, s2, hsplit, hcond⟩
      refine ⟨(k1, none) :: s1, s2, by rw [hsplit]; rfl, ?_⟩
      intro p hp w hw
      rcases List.mem_cons.mp hp with he | hmem
      · rw [he] at hw
        exact Option.noConfusion hw
      · exact hcond p hmem w hw
    | some v1 =>
      rw [show idxminP ((k1, some v1) :: rest) =
        (match idxminP rest with
         | none => some (k1, v1)
         | some (k2, v2) => if v2 < v1 then some (k2, v2) else some (k1, v1)) from rfl] at h
      rcases hm : idxminP rest with _ | ⟨k2, v2⟩ <;> rw [hm] at h
      · have h2 : some (k1, v1) = some (k, v) := h
        have hk : k1 = k := congrArg (fun p => p.1) (Option.some.inj h2)
        have hv : v1 = v := congrArg (fun p => p.2) (Option.some.inj h2)
        refine ⟨[], rest, ?_, fun p hp => absurd hp (List.not_mem_nil p)⟩
        rw [← hk, ← hv]
        rfl
      · have h2 : (if v2 < v1 then some (k2, v2) else some (k1, v1)) = some (k, v) := h
        by_cases hvv : v2 < v1
        · rw [if_pos hvv] at h2
          have hk : k2 = k := congrArg (fun p => p.1) (Option.some.inj h2)
          have hv : v2 = v := congrArg (fun p => p.2) (Option.some.inj h2)
          rcases ih (hk ▸ hv ▸ hm) with ⟨s1, s2, hsplit, hcond⟩
          refine ⟨(k1, some v1) :: s1, s2, by rw [hsplit]; rfl, ?_⟩
          intro p hp w hw
          rcases List.mem_cons.mp hp with he | hmem
          · rw [he] at hw
            have hwv : w = v1 := Option.some.inj hw.symm
            rw [hwv, ← hv]
            exact hvv
          · exact hcond p hmem w hw
        · rw [if_neg hvv] at h2
          have hk : k1 = k := congrArg (fun p => p.1) (Option.some.inj h2)
          have hv : v1 = v := congrArg (fun p => p.2) (Option.some.inj h2)
          refine ⟨[], rest, ?_, fun p hp => absurd hp (List.not_mem_nil p)⟩
          rw [← hk, ← hv]
          rfl

theorem dayNameOf_mem (d : ℤ) : dayNameOf d ∈ day_order := by
  rw [dayNameOf]
  have h0 : 0 ≤ (d + 3) % 7 := Int.emod_nonneg _ (by norm_num)
  have h7 : (d + 3) % 7 < 7 := Int.emod_lt_of_pos _ (by norm_num)
  have hlt : ((d + 3) % 7).toNat < 7 := by omega
  set n := ((d + 3) % 7).toNat with hn
  interval_cases n <;> decide

/-- C10: on any table derived from a non-empty input, the exported
summary is exactly six (metric, value) rows of text named Total
Records, Unique Users, Average Daily Steps, Average Sedentary Hours,
Most Active Day, Least Active Day; the Most Active Day is the first
entry of the Monday-to-Sunday weekly sequence holding its maximum (all
earlier days are strictly smaller, every day is no larger), and the
Least Active Day is, symmetrically, the first entry holding the
minimum — so ties go to the earlier day of the week. -/
theorem C10_summary_six_rows_and_tie_break :
    ∀ rows : List RawRecord, rows ≠ [] →
      ∃ (out : List (String × String)) (mx mn : String),
        summary_df (load_and_clean_data rows) = Except.ok out ∧
        out.length = 6 ∧
        out.map (fun p => p.1) =
          ["Total Records", "Unique Users", "Average Daily Steps",
           "Average Sedentary Hours", "Most Active Day", "Least Active Day"] ∧
        seriesGet out "Most Active Day" = some mx ∧
        seriesGet out "Least Active Day" = some mn ∧
        (∃ v s1 s2,
          weekly_patterns (load_and_clean_data rows) = s1 ++ (mx, some v) :: s2 ∧
          (∀ p ∈ s1, ∀ w : ℚ, p.2 = some w → w < v) ∧
          (∀ p ∈ weekly_patterns (load_and_clean_data rows), ∀ w : ℚ,
            p.2 = some w → w ≤ v)) ∧
        (∃ v s1 s2,
          weekly_patterns (load_and_clean_data rows) = s1 ++ (mn, some v) :: s2 ∧
          (∀ p ∈ s1, ∀ w : ℚ, p.2 = some w → v < w) ∧
          (∀ p ∈ weekly_patterns (load_and_clean_data rows), ∀ w : ℚ,
            p.2 = some w → v ≤ w)) := by
  intro rows hrows
  rcases rows with _ | ⟨r0, rest⟩
  · exact absurd rfl hrows
  have hhead : deriveRecord r0 ∈ load_and_clean_data (r0 :: rest) := by
    rw [load_and_clean_data, List.map_cons]
    exact List.mem_cons_self _ _
  have hdaymem : (deriveRecord r0).dayOfWeek ∈ day_order := dayNameOf_mem r0.activityDate
  have hfil : deriveRecord r0 ∈ (load_and_clean_data (r0 :: rest)).filter
      (fun r => r.dayOfWeek = (deriveRecord r0).dayOfWeek) :=
    List.mem_filter.mpr ⟨hhead, by simp⟩
  have hmean : meanOpt (((load_and_clean_data (r0 :: rest)).filter
      (fun r => r.dayOfWeek = (deriveRecord r0).dayOfWeek)).map
      (fun r => (r.totalSteps : ℚ))) ≠ none := by
    rw [meanOpt]
    cases hc : (load_and_clean_data (r0 :: rest)).filter
        (fun r => r.dayOfWeek = (deriveRecord r0).dayOfWeek) with
    | nil => exact absurd (hc ▸ hfil) (List.not_mem_nil _)
    | cons a as => simp
  have hentry : ((deriveRecord r0).dayOfWeek,
      meanOpt (((load_and_clean_data (r0 :: rest)).filter
        (fun r => r.dayOfWeek = (deriveRecord r0).dayOfWeek)).map
        (fun r => (r.totalSteps : ℚ)))) ∈ weekly_patterns (load_and_clean_data (r0 :: rest)) := by
    rw [weekly_patterns]
    exact List.mem_map.mpr ⟨(deriveRecord r0).dayOfWeek, hdaymem, rfl⟩
  have hmaxne : idxmaxP (weekly_patterns (load_and_clean_data (r0 :: rest))) ≠ none := by
    intro h
    exact hmean (idxmaxP_eq_none_iff.mp h _ hentry)
  have hminne : idxminP (weekly_patterns (load_and_clean_data (r0 :: rest))) ≠ none := by
    intro h
    exact hmean (idxminP_eq_none_iff.mp h _ hentry)
  rcases hmx : idxmaxP (weekly_patterns (load_and_clean_data (r0 :: rest))) with _ | ⟨mk, mv⟩
  · exact absurd hmx hmaxne
  rcases hmn : idxminP (weekly_patterns (load_and_clean_data (r0 :: rest))) with _ | ⟨nk, nv⟩
  · exact absurd hmn hminne
  have emx : idxmax (weekly_patterns (load_and_clean_data (r0 :: rest))) = some mk := by
    rw [idxmax, hmx]
    rfl
  have emn : idxmin (weekly_patterns (load_and_clean_data (r0 :: rest))) = some nk := by
    rw [idxmin, hmn]
    rfl
  refine ⟨[("Total Records", toString (load_and_clean_data (r0 :: rest)).length),
    ("Unique Users",
      toString (uniqueFirst ((load_and_clean_data (r0 :: rest)).map (fun r => r.id))).length),
    ("Average Daily Steps",
      formatMeanF0 ((load_and_clean_data (r0 :: rest)).map (fun r => (r.totalSteps : ℚ)))),
    ("Average Sedentary Hours",
      formatMeanHoursF1 ((load_and_clean_data (r0 :: rest)).map
        (fun r => (r.sedentaryMinutes : ℚ)))),
    ("Most Active Day", mk), ("Least Active Day", nk)], mk, nk, ?_, rfl, rfl, ?_, ?_, ?_, ?_⟩
  · rw [summary_df, emx, emn]
  · simp [seriesGet]
  · simp [seriesGet]
  · rcases idxmaxP_first hmx with ⟨s1, s2, hsplit, hcond⟩
    exact ⟨mv, s1, s2, hsplit, hcond, idxmaxP_ub hmx⟩
  · rcases idxminP_first hmn with ⟨s1, s2, hsplit, hcond⟩
    exact ⟨nv, s1, s2, hsplit, hcond, idxminP_lb hmn⟩

/-- Witness for C2 at the one-record table. -/
theorem C2_witness_concrete_table :
    (analyze_data oneSedTbl).1 =
      Except.error "NameError: name classify_activity_level is not defined" :=
  (C2_analyze_data_raises_name_error oneSedTbl).1

/-- Witness for the amended C3 at the section-8 table. -/
theorem C3_witness_section8_table :
    specTbl ≠ [] ∧
    ((activity_distribution specTbl).map (fun p => p.2)).sum = 100 :=
  ⟨by decide, (C3_record_distribution_amended specTbl (by decide)).1⟩

/-- Witness for the amended C4 at the one-record table. -/
theorem C4_witness_one_record_table :
    oneSedTbl ≠ [] ∧
    ((user_activity_levels oneSedTbl).map (fun p => p.2)).sum = 100 :=
  ⟨by decide, (C4_user_levels_amended.1 oneSedTbl (by decide)).1⟩

/-- Witness for C5: Wednesday has no record in the section-8 table and
still appears, holding NaN. -/
theorem C5_witness_empty_day :
    ("Wednesday" ∈ day_order) ∧
    seriesGet (weekly_patterns specTbl) "Wednesday" = some none :=
  ⟨by decide,
    ((C5_weekly_patterns_fixed_week specTbl "Wednesday").2 (by decide)).2 (by decide)⟩

/-- Witness for C7 at user B's Monday row, whose minute columns are all
zero. -/
theorem C7_witness_all_zero_minutes :
    (specB1.veryActiveMinutes + specB1.fairlyActiveMinutes + specB1.lightlyActiveMinutes = 0) ∧
    specB1.sedentaryMinutes = 0 ∧
    (deriveRecord specB1).activityPercentage = none :=
  ⟨by decide, by decide,
    (C7_activity_percentage_division_by_zero specB1 (by decide) (by decide)).1⟩

/-- Witness for C8 on the analysis of the one-record table, where the
Very Active bucket is absent. -/
theorem C8_witness_missing_bucket :
    ∃ k, k ∈ report_levels ∧
      (seriesGet oneSedResults.activityDistribution k = none ∨
        seriesGet oneSedResults.userActivityLevels k = none) ∧
      render_detailed_page oneSedResults = Except.error ("KeyError: " ++ k) :=
  C8_render_fails_with_named_missing_key oneSedResults
    ⟨"Very Active", by decide, Or.inl (by
      show seriesGet (activity_distribution oneSedTbl) "Very Active" = none
      rw [activity_distribution_oneSedTbl]
      decide)⟩

/-- Witness for C10 at the tied two-day table. -/
theorem C10_witness_tied_days :
    tieRows ≠ [] ∧
    ∃ (out : List (String × String)) (mx mn : String),
      summary_df (load_and_clean_data tieRows) = Except.ok out ∧
      out.length = 6 ∧
      out.map (fun p => p.1) =
        ["Total Records", "Unique Users", "Average Daily Steps",
         "Average Sedentary Hours", "Most Active Day", "Least Active Day"] ∧
      seriesGet out "Most Active Day" = some mx ∧
      seriesGet out "Least Active Day" = some mn ∧
      (∃ v s1 s2,
        weekly_patterns (load_and_clean_data tieRows) = s1 ++ (mx, some v) :: s2 ∧
        (∀ p ∈ s1, ∀ w : ℚ, p.2 = some w → w < v) ∧
        (∀ p ∈ weekly_patterns (load_and_clean_data tieRows), ∀ w : ℚ,
          p.2 = some w → w ≤ v)) ∧
      (∃ v s1 s2,
        weekly_patterns (load_and_clean_data tieRows) = s1 ++ (mn, some v) :: s2 ∧
        (∀ p ∈ s1, ∀ w : ℚ, p.2 = some w → v < w) ∧
        (∀ p ∈ weekly_patterns (load_and_clean_data tieRows), ∀ w : ℚ,
          p.2 = some w → v ≤ w)) :=
  ⟨by decide, C10_summary_six_rows_and_tie_break tieRows (by decide)⟩
